import Mathlib

/-!
# Crudback: the four request handlers of `main.go`

A shallow embedding of `createItem`, `readItems`, `updateItem` and `deleteItem`.
The handlers talk to three collaborators that are not part of the repository:
the HTTP response writer, the JSON codec and the Firebase Realtime Database
client.  The writer and the encoder are modelled after the documented behaviour
of the Go standard library; the body decoder and the database client are
parameters of the handlers (`Env`).  Every database call a handler issues is
recorded in a log, so that "no store call" and "exactly one merge write" are
statements about that log.
-/

namespace Crudback

/-! ## Data model -/

/-- The Go struct `Item` (main.go, lines 22-27). -/
structure Item where
  ID : String
  Nome : String
  Telefone : Int
  Endereco : String
  deriving DecidableEq, Repr

/-- The zero value of `Item`, what `var newItem Item` declares. -/
def Item.zero : Item := ⟨"", "", 0, ""⟩

/-- A scalar JSON value: the only kinds the fields of an `Item` take. -/
inductive Value where
  | str (s : String)
  | int (n : Int)
  deriving DecidableEq, Repr

/-- A JSON object with scalar members, in the order they are written. -/
abbrev Document := List (String × Value)

/-- The JSON values the handlers can emit. -/
inductive Json where
  | null
  | object (d : Document)
  | array (ds : List Document)
  deriving DecidableEq, Repr

/-- A Go slice: `none` is the nil slice, `some xs` a non-nil slice with elements `xs`. -/
abbrev Slice (α : Type) := Option (List α)

/-- The elements of a slice; the nil slice has none. -/
def Slice.elems {α : Type} : Slice α → List α
  | none => []
  | some xs => xs

/-- Go's `append(s, v)`: appending to the nil slice allocates a one-element slice. -/
def Slice.append {α : Type} (s : Slice α) (v : α) : Slice α :=
  match s with
  | none => some [v]
  | some xs => some (xs ++ [v])

/-- A Go `map[string]Item`: `none` is the nil map, `some es` a map with entries `es`. -/
abbrev GoMap := Option (List (String × Item))

/-- The entries of a map; the nil map has none. -/
def GoMap.entries : GoMap → List (String × Item)
  | none => []
  | some es => es

/-- The order in which one execution of `for ... range m` visits the entries of a map:
unspecified by the language, but every entry is visited exactly once. -/
structure RangeOrder where
  visit : List (String × Item) → List (String × Item)
  perm : ∀ es, (visit es).Perm es

/-! ## JSON encoding (`encoding/json`) -/

/-- The object `json.Marshal` produces for an `Item`, following the struct tags. -/
def marshalItem (i : Item) : Document :=
  [("id", .str i.ID), ("nome", .str i.Nome), ("telefone", .int i.Telefone),
   ("endereco", .str i.Endereco)]

/-- The value `json.Marshal` produces for a `[]Item`: a nil slice encodes as `null`,
any other slice as an array. -/
def marshalItems : Slice Item → Json
  | none => .null
  | some xs => .array (xs.map marshalItem)

/-! ## HTTP boundary (`net/http`) -/

/-- One write to the response body. -/
inductive Chunk where
  /-- A message written as one line of plain text (`fmt.Fprintln`). -/
  | line (msg : String)
  /-- Text written as is (`fmt.Fprintf`). -/
  | text (s : String)
  /-- A JSON value written by `json.Encoder.Encode`. -/
  | json (v : Json)
  deriving DecidableEq, Repr

/-- The state of an `http.ResponseWriter`: the status line once it is sent, and the
body written so far. -/
structure ResponseWriter where
  status : Option Nat
  body : List Chunk
  deriving DecidableEq, Repr

/-- The writer a handler receives: nothing sent yet. -/
def ResponseWriter.fresh : ResponseWriter := ⟨none, []⟩

/-- The method `WriteHeader`: sends the status line, unless one was already sent. -/
def ResponseWriter.WriteHeader (w : ResponseWriter) (code : Nat) : ResponseWriter :=
  match w.status with
  | none => { w with status := some code }
  | some _ => w

/-- The method `Write`: sends status 200 first when no status line was sent. -/
def ResponseWriter.Write (w : ResponseWriter) (c : Chunk) : ResponseWriter :=
  { status := some (w.status.getD 200), body := w.body ++ [c] }

/-- The function `http.Error`: replies with the given code and the message as a line
of plain text. -/
def httpError (w : ResponseWriter) (msg : String) (code : Nat) : ResponseWriter :=
  (w.WriteHeader code).Write (.line msg)

def StatusOK : Nat := 200
def StatusCreated : Nat := 201
def StatusBadRequest : Nat := 400
def StatusInternalServerError : Nat := 500

/-- An incoming request: the raw body and the parsed query string of the URL. -/
structure Request where
  body : String
  query : List (String × String)

/-- The method `url.Values.Get`: the first value of the key, `""` when there is none. -/
def queryGet (q : List (String × String)) (key : String) : String :=
  match q.find? (fun p => p.1 == key) with
  | some p => p.2
  | none => ""

/-! ## Database client (`firebase.google.com/go/db`) -/

/-- The call `strings.Split(path, "/")` on the characters of a path: the pieces between
the slashes, empty pieces included. -/
def splitSlash : List Char → List (List Char)
  | [] => [[]]
  | c :: cs =>
    if c = '/' then [] :: splitSlash cs
    else
      match splitSlash cs with
      | [] => [[c]]
      | seg :: rest => (c :: seg) :: rest

/-- The function `parsePath` of the client: the path is split on `/` and the empty
pieces are dropped. -/
def parsePath (path : String) : List String :=
  ((splitSlash path.data).filter (fun seg => !seg.isEmpty)).map String.mk

/-- A database reference `db.Ref`: the segments of its path. -/
structure Ref where
  segs : List String
  deriving DecidableEq, Repr

/-- The method `Client.NewRef`: the reference to the node at the parsed path. -/
def NewRef (path : String) : Ref := ⟨parsePath path⟩

/-- The field `Ref.Key`: the last segment, `""` for the root. -/
def Ref.Key (r : Ref) : String := r.segs.getLast?.getD ""

/-- The field `Ref.Path`: a slash followed by the segments joined by `/`. -/
def Ref.Path (r : Ref) : String := "/" ++ "/".intercalate r.segs

/-- The method `Ref.Child`: the reference at `fmt.Sprintf("%s/%s", r.Path, path)`,
parsed anew, so that slashes in `path` separate segments. -/
def Ref.Child (r : Ref) (path : String) : Ref := NewRef (r.Path ++ "/" ++ path)

/-- A call made on the database client. -/
inductive StoreCall where
  | Push (ref : Ref) (v : Item)
  | Get (ref : Ref)
  | Update (ref : Ref) (fields : Document)
  | Delete (ref : Ref)
  deriving DecidableEq, Repr

/-- The four primitives of the database client over a database state `σ`.  A failed
primitive returns the text of its error (`err.Error()`). -/
structure Store (σ : Type) where
  Push : σ → Ref → Item → Except String Ref × σ
  Get : σ → Ref → Except String GoMap × σ
  Update : σ → Ref → Document → Option String × σ
  Delete : σ → Ref → Option String × σ

/-- What a handler runs against: the database client (the global `firebaseDB`), the
decoder `json.NewDecoder(r.Body).Decode` applied to a zero `Item`, and the order in
which `range` visits a map. -/
structure Env (σ : Type) where
  store : Store σ
  decode : String → Except String Item
  order : RangeOrder

/-- The database together with the log of the calls issued on the client. -/
structure World (σ : Type) where
  db : σ
  calls : List StoreCall

/-- The call `ref.Push(ctx, v)` on the client, logged. -/
def World.Push {σ : Type} (env : Env σ) (s : World σ) (ref : Ref) (v : Item) :
    Except String Ref × World σ :=
  ((env.store.Push s.db ref v).1, ⟨(env.store.Push s.db ref v).2, s.calls ++ [.Push ref v]⟩)

/-- The call `ref.Get(ctx, &data)` on the client, logged. -/
def World.Get {σ : Type} (env : Env σ) (s : World σ) (ref : Ref) :
    Except String GoMap × World σ :=
  ((env.store.Get s.db ref).1, ⟨(env.store.Get s.db ref).2, s.calls ++ [.Get ref]⟩)

/-- The call `ref.Update(ctx, fields)` on the client, logged. -/
def World.Update {σ : Type} (env : Env σ) (s : World σ) (ref : Ref) (fields : Document) :
    Option String × World σ :=
  ((env.store.Update s.db ref fields).1,
    ⟨(env.store.Update s.db ref fields).2, s.calls ++ [.Update ref fields]⟩)

/-- The call `ref.Delete(ctx)` on the client, logged. -/
def World.Delete {σ : Type} (env : Env σ) (s : World σ) (ref : Ref) :
    Option String × World σ :=
  ((env.store.Delete s.db ref).1, ⟨(env.store.Delete s.db ref).2, s.calls ++ [.Delete ref]⟩)

/-! ## The handlers -/

/-- The handler `createItem` (main.go, lines 84-109). -/
def createItem {σ : Type} (env : Env σ) (w : ResponseWriter) (r : Request) (s : World σ) :
    ResponseWriter × World σ :=
  match env.decode r.body with
  | .error err => (httpError w err StatusBadRequest, s)
  | .ok newItem =>
    let ref := NewRef "items"
    match World.Push env s ref newItem with
    | (.error err, s1) => (httpError w err StatusInternalServerError, s1)
    | (.ok childRef, s1) =>
      let newItem := { newItem with ID := childRef.Key }
      ((w.WriteHeader StatusCreated).Write (.json (.object (marshalItem newItem))), s1)

/-- The loop `for _, v := range data { items = append(items, v) }` of `readItems`,
over the entries in the order they are visited. -/
def collect (items : Slice Item) : List (String × Item) → Slice Item
  | [] => items
  | (_, v) :: rest => collect (items.append v) rest

/-- The handler `readItems` (main.go, lines 112-133). -/
def readItems {σ : Type} (env : Env σ) (w : ResponseWriter) (_r : Request) (s : World σ) :
    ResponseWriter × World σ :=
  let ref := NewRef "items"
  match World.Get env s ref with
  | (.error err, s1) => (httpError w err StatusInternalServerError, s1)
  | (.ok data, s1) =>
    let items : Slice Item := collect none (env.order.visit data.entries)
    (w.Write (.json (marshalItems items)), s1)

/-- The handler `updateItem` (main.go, lines 136-170). -/
def updateItem {σ : Type} (env : Env σ) (w : ResponseWriter) (r : Request) (s : World σ) :
    ResponseWriter × World σ :=
  match env.decode r.body with
  | .error err => (httpError w err StatusBadRequest, s)
  | .ok updatedItem =>
    let itemID := queryGet r.query "itemID"
    if itemID = "" then
      (httpError w "Item ID is missing" StatusBadRequest, s)
    else
      let ref := (NewRef "items").Child itemID
      match World.Update env s ref
          [("nome", .str updatedItem.Nome), ("telefone", .int updatedItem.Telefone),
           ("endereco", .str updatedItem.Endereco)] with
      | (some err, s1) => (httpError w err StatusInternalServerError, s1)
      | (none, s1) =>
        ((w.WriteHeader StatusOK).Write
          (.text ("Item with ID " ++ itemID ++ " updated successfully")), s1)

/-- The handler `deleteItem` (main.go, lines 173-195). -/
def deleteItem {σ : Type} (env : Env σ) (w : ResponseWriter) (r : Request) (s : World σ) :
    ResponseWriter × World σ :=
  let itemID := queryGet r.query "itemID"
  if itemID = "" then
    (httpError w "Item ID is missing" StatusBadRequest, s)
  else
    let ref := (NewRef "items").Child itemID
    match World.Delete env s ref with
    | (some err, s1) => (httpError w err StatusInternalServerError, s1)
    | (none, s1) =>
      ((w.WriteHeader StatusOK).Write
        (.text ("Item with ID " ++ itemID ++ " deleted successfully")), s1)

/-! ## A reference database

The handlers are parametric in the database client.  Statements that speak of the
content of the collection (what a read returns after a create, whether an id is
present) need a database to run against; `MemStore` is that database. -/

/-- Modelled from the spec: the remote store client ("a keyed, hierarchical document
store ... offering four primitives"), whose code is not part of the repository.  The
database holds the collection `items` as a list of records by key. -/
structure MemDB where
  items : List (String × Item)
  deriving DecidableEq, Repr

/-- Modelled from the spec: key allocation of the remote store ("a freshly allocated
key").  The key is longer than every key in use, hence new. -/
def freshKey (es : List (String × Item)) : String :=
  String.mk (List.replicate ((es.map (fun e => e.1.length)).foldr max 0 + 1) 'k')

/-- Modelled from the spec: the effect of writing one named field on a record ("a write
that replaces only named fields of an existing record, preserving others"). -/
def mergeField (i : Item) (f : String × Value) : Item :=
  match f with
  | ("id", .str v) => { i with ID := v }
  | ("nome", .str v) => { i with Nome := v }
  | ("telefone", .int v) => { i with Telefone := v }
  | ("endereco", .str v) => { i with Endereco := v }
  | _ => i

/-- Modelled from the spec: a merge write of several fields on a record. -/
def mergeFields (i : Item) (fields : Document) : Item :=
  fields.foldl mergeField i

/-- Modelled from the spec: merge-update-by-key on the collection.  The Realtime
Database applies a merge to a key that holds no record by creating the record from
the written fields. -/
def mergeAt (k : String) (fields : Document) :
    List (String × Item) → List (String × Item)
  | [] => [(k, mergeFields Item.zero fields)]
  | (k1, v) :: rest =>
    if k1 = k then (k1, mergeFields v fields) :: rest
    else (k1, v) :: mergeAt k fields rest

/-- Modelled from the spec: generate-unique-child-key-and-write.  The submitted document
is written under a fresh key of the collection and the reference to it is returned. -/
def MemStore.Push (db : MemDB) (ref : Ref) (v : Item) : Except String Ref × MemDB :=
  if ref = NewRef "items" then
    (.ok (ref.Child (freshKey db.items)), ⟨db.items ++ [(freshKey db.items, v)]⟩)
  else (.error "unknown collection", db)

/-- Modelled from the spec: read-entire-collection.  The stored documents are returned
by key; a collection without records reads as the nil map. -/
def MemStore.Get (db : MemDB) (ref : Ref) : Except String GoMap × MemDB :=
  if ref = NewRef "items" then
    (.ok (if db.items = [] then none else some db.items), db)
  else (.error "unknown collection", db)

/-- Modelled from the spec: merge-update-by-key. -/
def MemStore.Update (db : MemDB) (ref : Ref) (fields : Document) : Option String × MemDB :=
  match ref.segs with
  | ["items", k] => (none, ⟨mergeAt k fields db.items⟩)
  | _ => (some "unknown collection", db)

/-- Modelled from the spec: delete-by-key; deleting a key that holds no record succeeds. -/
def MemStore.Delete (db : MemDB) (ref : Ref) : Option String × MemDB :=
  match ref.segs with
  | ["items", k] => (none, ⟨db.items.filter (fun e => e.1 ≠ k)⟩)
  | _ => (some "unknown collection", db)

/-- Modelled from the spec: the remote store client as a `Store`. -/
def memStore : Store MemDB :=
  ⟨MemStore.Push, MemStore.Get, MemStore.Update, MemStore.Delete⟩

/-- A database client whose every primitive fails with the given message, as when the
backend is unreachable. -/
def downStore (msg : String) : Store MemDB :=
  ⟨fun db _ _ => (.error msg, db), fun db _ => (.error msg, db),
   fun db _ _ => (some msg, db), fun db _ => (some msg, db)⟩

/-- A decoder for a few request bodies, standing in for `encoding/json`: the example
body of the specification, the same body carrying an id, and text that is not JSON. -/
def sampleDecode (body : String) : Except String Item :=
  if body = "\x7b\"nome\":\"Ana\",\"telefone\":5551234,\"endereco\":\"Rua A\"\x7d" then
    .ok ⟨"", "Ana", 5551234, "Rua A"⟩
  else if body =
      "\x7b\"id\":\"abc\",\"nome\":\"Ana\",\"telefone\":5551234,\"endereco\":\"Rua A\"\x7d" then
    .ok ⟨"abc", "Ana", 5551234, "Rua A"⟩
  else .error "invalid character"

/-- The example body of the specification. -/
def bodyAna : String :=
  "\x7b\"nome\":\"Ana\",\"telefone\":5551234,\"endereco\":\"Rua A\"\x7d"

/-- The example body of the specification, carrying an id of the caller's choice. -/
def bodyAnaWithId : String :=
  "\x7b\"id\":\"abc\",\"nome\":\"Ana\",\"telefone\":5551234,\"endereco\":\"Rua A\"\x7d"

/-- A range order that visits the entries as listed. -/
def listedOrder : RangeOrder := ⟨fun es => es, fun es => List.Perm.refl es⟩

/-- A range order that visits the entries last to first. -/
def reversedOrder : RangeOrder := ⟨List.reverse, List.reverse_perm⟩

/-- The reference environment: the reference database and the sample decoder. -/
def memEnv : Env MemDB := ⟨memStore, sampleDecode, listedOrder⟩

/-- An environment whose database is unreachable. -/
def downEnv (msg : String) : Env MemDB := ⟨downStore msg, sampleDecode, listedOrder⟩

/-- A world with an empty collection and an empty call log. -/
def emptyWorld : World MemDB := ⟨⟨[]⟩, []⟩

/-- The reference environment with the entries of a map visited last to first. -/
def memEnvReversed : Env MemDB := ⟨memStore, sampleDecode, reversedOrder⟩

/-- A database client whose Get answers the given mapping whatever the reference; the
other primitives are those of the reference database. -/
def answeringStore (data : GoMap) : Store MemDB :=
  ⟨MemStore.Push, fun db _ => (.ok data, db), MemStore.Update, MemStore.Delete⟩

/-- An environment whose Get answers the given mapping. -/
def answeringEnv (data : GoMap) : Env MemDB := ⟨answeringStore data, sampleDecode, listedOrder⟩

/-- Serving a request: the handler runs on a fresh response writer. -/
def serve {σ : Type}
    (handler : Env σ → ResponseWriter → Request → World σ → ResponseWriter × World σ)
    (env : Env σ) (r : Request) (s : World σ) : ResponseWriter × World σ :=
  handler env ResponseWriter.fresh r s

/-! ## Helper lemmas -/

theorem fresh_writeHeader (code : Nat) :
    ResponseWriter.fresh.WriteHeader code = ⟨some code, []⟩ := rfl

theorem fresh_httpError (msg : String) (code : Nat) :
    httpError ResponseWriter.fresh msg code = ⟨some code, [.line msg]⟩ := rfl

theorem collect_elems (acc : Slice Item) (es : List (String × Item)) :
    (collect acc es).elems = acc.elems ++ es.map Prod.snd := by
  induction es generalizing acc with
  | nil => simp [collect]
  | cons e rest ih =>
    obtain ⟨k, v⟩ := e
    rw [collect, ih]
    cases acc <;> simp [Slice.append, Slice.elems]

theorem collect_isSome (acc : Slice Item) (es : List (String × Item)) (h : es ≠ []) :
    ∃ xs, collect acc es = some xs := by
  induction es generalizing acc with
  | nil => exact absurd rfl h
  | cons e rest ih =>
    obtain ⟨k, v⟩ := e
    cases rest with
    | nil => cases acc <;> simp [collect, Slice.append]
    | cons e2 rest2 => exact ih (acc.append v) (by simp)

theorem splitSlash_of_no_slash (cs : List Char) (h : '/' ∉ cs) : splitSlash cs = [cs] := by
  induction cs with
  | nil => rfl
  | cons c rest ih =>
    have hc : c ≠ '/' := fun hc => h (by simp [hc])
    have hr : '/' ∉ rest := fun hr => h (by simp [hr])
    simp [splitSlash, hc, ih hr]

theorem newRef_items : NewRef "items" = ⟨["items"]⟩ := by decide

/-- For an id that is not empty and holds no slash, the child of `items` named by it
has the two segments `items` and the id. -/
theorem child_items_segs (id : String) (hne : id ≠ "") (hs : '/' ∉ id.data) :
    ((NewRef "items").Child id).segs = ["items", id] := by
  have hd : id.data ≠ [] := fun h => hne (String.ext (by simpa using h))
  have hdata : ((NewRef "items").Path ++ "/" ++ id).data =
      '/' :: 'i' :: 't' :: 'e' :: 'm' :: 's' :: '/' :: id.data := by
    rw [newRef_items]
    simp [Ref.Path, String.intercalate, String.intercalate.go, String.data_append]
  simp only [Ref.Child, NewRef, parsePath] at *
  rw [hdata]
  simp [splitSlash, splitSlash_of_no_slash _ hs, List.filter, hd]

/-! ## The claims -/

/-- C1: an update or a delete without an `itemID`, and a create or an update whose body
does not decode, are answered with status 400 and leave the world as it was: the
database is untouched and no call is added to the log of store calls. -/
theorem client_errors_reach_no_store {σ : Type} (env : Env σ) (r : Request) (s : World σ) :
    (queryGet r.query "itemID" = "" →
      (serve updateItem env r s).1.status = some 400 ∧ (serve updateItem env r s).2 = s) ∧
    (queryGet r.query "itemID" = "" →
      (serve deleteItem env r s).1.status = some 400 ∧ (serve deleteItem env r s).2 = s) ∧
    ((∃ e, env.decode r.body = .error e) →
      (serve createItem env r s).1.status = some 400 ∧ (serve createItem env r s).2 = s) ∧
    ((∃ e, env.decode r.body = .error e) →
      (serve updateItem env r s).1.status = some 400 ∧ (serve updateItem env r s).2 = s) := by
  refine ⟨?_, ?_, ?_, ?_⟩
  · intro hid
    cases hdec : env.decode r.body <;>
      simp [serve, updateItem, hdec, hid, fresh_httpError, StatusBadRequest]
  · intro hid
    simp [serve, deleteItem, hid, fresh_httpError, StatusBadRequest]
  · rintro ⟨e, hdec⟩
    simp [serve, createItem, hdec, fresh_httpError, StatusBadRequest]
  · rintro ⟨e, hdec⟩
    simp [serve, updateItem, hdec, fresh_httpError, StatusBadRequest]

/-- Witness of C1: a request without `itemID` whose body is not JSON, served by each
handler over the reference database. -/
theorem client_errors_reach_no_store_witness :
    (queryGet [] "itemID" = "" ∧ (∃ e, memEnv.decode "not json" = .error e)) ∧
    ((serve updateItem memEnv ⟨"not json", []⟩ emptyWorld).1.status = some 400 ∧
      (serve updateItem memEnv ⟨"not json", []⟩ emptyWorld).2 = emptyWorld) ∧
    ((serve deleteItem memEnv ⟨"not json", []⟩ emptyWorld).1.status = some 400 ∧
      (serve deleteItem memEnv ⟨"not json", []⟩ emptyWorld).2 = emptyWorld) ∧
    ((serve createItem memEnv ⟨"not json", []⟩ emptyWorld).1.status = some 400 ∧
      (serve createItem memEnv ⟨"not json", []⟩ emptyWorld).2 = emptyWorld) :=
  ⟨⟨by decide, ⟨"invalid character", rfl⟩⟩,
   (client_errors_reach_no_store memEnv ⟨"not json", []⟩ emptyWorld).1 (by decide),
   (client_errors_reach_no_store memEnv ⟨"not json", []⟩ emptyWorld).2.1 (by decide),
   (client_errors_reach_no_store memEnv ⟨"not json", []⟩ emptyWorld).2.2.1
     ⟨"invalid character", rfl⟩⟩

/-- C2: when the body decodes to an item and Push succeeds returning a reference with
key `k`, the response of `createItem` is status 201 with the JSON object of the item
whose id is `k` and whose nome, telefone and endereco are those decoded from the body,
whatever id the body carried. -/
theorem create_answers_item_with_key {σ : Type} (env : Env σ) (r : Request) (s : World σ)
    (item : Item) (childRef : Ref) (db1 : σ)
    (hdec : env.decode r.body = .ok item)
    (hpush : env.store.Push s.db (NewRef "items") item = (.ok childRef, db1)) :
    (serve createItem env r s).1 =
      ⟨some 201, [.json (.object [("id", .str childRef.Key), ("nome", .str item.Nome),
        ("telefone", .int item.Telefone), ("endereco", .str item.Endereco)])]⟩ := by
  simp [serve, createItem, World.Push, hdec, hpush, fresh_writeHeader, StatusCreated,
    ResponseWriter.Write, marshalItem]

/-- Witness of C2: the example body of the specification carrying the id `abc`, created
in the empty reference database, which allocates the key `k`. -/
theorem create_answers_item_with_key_witness :
    (memEnv.decode bodyAnaWithId = .ok ⟨"abc", "Ana", 5551234, "Rua A"⟩ ∧
      memEnv.store.Push emptyWorld.db (NewRef "items") ⟨"abc", "Ana", 5551234, "Rua A"⟩ =
        (.ok ⟨["items", "k"]⟩, ⟨[("k", ⟨"abc", "Ana", 5551234, "Rua A"⟩)]⟩)) ∧
    (serve createItem memEnv ⟨bodyAnaWithId, []⟩ emptyWorld).1 =
      ⟨some 201, [.json (.object [("id", .str "k"), ("nome", .str "Ana"),
        ("telefone", .int 5551234), ("endereco", .str "Rua A")])]⟩ :=
  ⟨⟨rfl, rfl⟩,
   create_answers_item_with_key memEnv ⟨bodyAnaWithId, []⟩ emptyWorld
     ⟨"abc", "Ana", 5551234, "Rua A"⟩ ⟨["items", "k"]⟩ ⟨[("k", ⟨"abc", "Ana", 5551234, "Rua A"⟩)]⟩
     rfl rfl⟩

/-- C3 fails as stated: the example body carrying the id `abc` decodes, and the
document `createItem` hands to Push is the decoded item with that id, not an item
without id. -/
theorem create_pushes_caller_id :
    memEnv.decode bodyAnaWithId = .ok ⟨"abc", "Ana", 5551234, "Rua A"⟩ ∧
    (serve createItem memEnv ⟨bodyAnaWithId, []⟩ emptyWorld).2.calls =
      [.Push (NewRef "items") ⟨"abc", "Ana", 5551234, "Rua A"⟩] ∧
    ¬ ∀ ref v, StoreCall.Push ref v ∈
        (serve createItem memEnv ⟨bodyAnaWithId, []⟩ emptyWorld).2.calls → v.ID = "" := by
  refine ⟨rfl, by decide, ?_⟩
  intro h
  exact absurd (h (NewRef "items") ⟨"abc", "Ana", 5551234, "Rua A"⟩ (by decide)) (by decide)

/-- C3 as amended: for a decodable body the one store call of `createItem` is a Push on
`items` of the decoded item unchanged, so the document has the nome, telefone and
endereco of the body and, as id, the id the body carried. -/
theorem create_pushes_decoded_item {σ : Type} (env : Env σ) (r : Request) (s : World σ)
    (item : Item) (hdec : env.decode r.body = .ok item) :
    (serve createItem env r s).2.calls = s.calls ++ [.Push (NewRef "items") item] := by
  simp only [serve, createItem, hdec]
  cases hres : (World.Push env s (NewRef "items") item).1 <;>
    · have hw : World.Push env s (NewRef "items") item =
          ((World.Push env s (NewRef "items") item).1,
            (World.Push env s (NewRef "items") item).2) := rfl
      rw [hw, hres]
      rfl

/-- Witness of the amended C3: the example body without an id, created in the empty
reference database; the pushed document carries the empty id. -/
theorem create_pushes_decoded_item_witness :
    memEnv.decode bodyAna = .ok ⟨"", "Ana", 5551234, "Rua A"⟩ ∧
    (serve createItem memEnv ⟨bodyAna, []⟩ emptyWorld).2.calls =
      emptyWorld.calls ++ [.Push (NewRef "items") ⟨"", "Ana", 5551234, "Rua A"⟩] :=
  ⟨rfl, create_pushes_decoded_item memEnv ⟨bodyAna, []⟩ emptyWorld
    ⟨"", "Ana", 5551234, "Rua A"⟩ rfl⟩

/-- C7 fails as stated: for the non-empty `itemID` `/` and a decodable body, the merge
write of `updateItem` is addressed to the collection `items` itself (path `/items`,
key `items`), not to a key under it; and for the `itemID` `a/b` the key of the
addressed node is `b`, not `a/b`. -/
theorem update_with_slash_id_misses_key :
    queryGet [("itemID", "/")] "itemID" ≠ "" ∧
    memEnv.decode bodyAna = .ok ⟨"", "Ana", 5551234, "Rua A"⟩ ∧
    (serve updateItem memEnv ⟨bodyAna, [("itemID", "/")]⟩ emptyWorld).2.calls =
      [.Update (NewRef "items")
        [("nome", .str "Ana"), ("telefone", .int 5551234), ("endereco", .str "Rua A")]] ∧
    ((NewRef "items").Child "/").Path = "/items" ∧
    ((NewRef "items").Child "/").Key = "items" ∧
    ((NewRef "items").Child "a/b").Path = "/items/a/b" ∧
    ((NewRef "items").Child "a/b").Key = "b" := by
  refine ⟨by decide, rfl, by decide, by decide, by decide, by decide, by decide⟩

/-- C7 as amended: for a decodable body and an `itemID` that is not empty and holds no
slash, the one store call of `updateItem` is a merge write on the child `itemID` of
`items`, and the database afterwards is the one that merge leaves; the addressed node
has the segments `items` and `itemID`, the path `/items/<itemID>` and the key `itemID`;
the written fields are exactly nome, telefone and endereco with the decoded values, and
`id` is not among them; when the merge succeeds the response is status 200 with the
text `Item with ID <itemID> updated successfully`, which contains `itemID`. -/
theorem update_issues_one_merge_at_key {σ : Type} (env : Env σ) (r : Request)
    (s : World σ) (item : Item) (hid : queryGet r.query "itemID" ≠ "")
    (hslash : '/' ∉ (queryGet r.query "itemID").data)
    (hdec : env.decode r.body = .ok item) :
    (serve updateItem env r s).2 =
      ⟨(env.store.Update s.db ((NewRef "items").Child (queryGet r.query "itemID"))
          [("nome", .str item.Nome), ("telefone", .int item.Telefone),
           ("endereco", .str item.Endereco)]).2,
        s.calls ++ [.Update ((NewRef "items").Child (queryGet r.query "itemID"))
          [("nome", .str item.Nome), ("telefone", .int item.Telefone),
           ("endereco", .str item.Endereco)]]⟩ ∧
    ((NewRef "items").Child (queryGet r.query "itemID")).segs =
      ["items", queryGet r.query "itemID"] ∧
    ((NewRef "items").Child (queryGet r.query "itemID")).Path =
      "/items/" ++ queryGet r.query "itemID" ∧
    ((NewRef "items").Child (queryGet r.query "itemID")).Key = queryGet r.query "itemID" ∧
    (∀ f : String × Value, f ∈ ([("nome", .str item.Nome), ("telefone", .int item.Telefone),
        ("endereco", .str item.Endereco)] : Document) → f.1 ≠ "id") ∧
    ((env.store.Update s.db ((NewRef "items").Child (queryGet r.query "itemID"))
        [("nome", .str item.Nome), ("telefone", .int item.Telefone),
         ("endereco", .str item.Endereco)]).1 = none →
      (serve updateItem env r s).1 =
        ⟨some 200, [.text ("Item with ID " ++ queryGet r.query "itemID" ++
          " updated successfully")]⟩ ∧
      (queryGet r.query "itemID").data <:+:
        ("Item with ID " ++ queryGet r.query "itemID" ++ " updated successfully").data) := by
  have hw : ∀ p : Option String × World σ, p = (p.1, p.2) := fun _ => rfl
  have hsegs := child_items_segs (queryGet r.query "itemID") hid hslash
  refine ⟨?_, hsegs, ?_, ?_, ?_, ?_⟩
  · simp only [serve, updateItem, hdec, if_neg hid]
    cases hres : (World.Update env s ((NewRef "items").Child (queryGet r.query "itemID"))
        [("nome", .str item.Nome), ("telefone", .int item.Telefone),
         ("endereco", .str item.Endereco)]).1 <;>
      · rw [hw (World.Update env s _ _), hres]
        rfl
  · simp only [Ref.Path, hsegs, String.intercalate, String.intercalate.go]
    apply String.ext
    simp [String.data_append]
  · simp [Ref.Key, hsegs]
  · intro f hf
    simp only [List.mem_cons, List.mem_singleton, List.not_mem_nil, or_false] at hf
    rcases hf with rfl | rfl | rfl <;> simp
  · intro hok
    constructor
    · simp only [serve, updateItem, hdec, if_neg hid]
      have h1 : (World.Update env s ((NewRef "items").Child (queryGet r.query "itemID"))
        [("nome", .str item.Nome), ("telefone", .int item.Telefone),
         ("endereco", .str item.Endereco)]).1 = none := hok
      rw [hw (World.Update env s _ _), h1]
      rfl
    · exact ⟨"Item with ID ".data, " updated successfully".data, by
        simp [String.data_append]⟩

/-- Witness of the amended C7: the update of the specification's example, on the
record `k` of the reference database; the record keeps its key and its id and takes
the three written fields. -/
theorem update_issues_one_merge_at_key_witness :
    (queryGet [("itemID", "k")] "itemID" ≠ "" ∧
      '/' ∉ (queryGet [("itemID", "k")] "itemID").data ∧
      memEnv.decode bodyAna = .ok ⟨"", "Ana", 5551234, "Rua A"⟩) ∧
    (serve updateItem memEnv ⟨bodyAna, [("itemID", "k")]⟩
        ⟨⟨[("k", ⟨"k", "Bia", 1, "Rua B"⟩)]⟩, []⟩).2 =
      ⟨⟨[("k", ⟨"k", "Ana", 5551234, "Rua A"⟩)]⟩,
        [.Update ⟨["items", "k"]⟩
          [("nome", .str "Ana"), ("telefone", .int 5551234), ("endereco", .str "Rua A")]]⟩ :=
  ⟨⟨by decide, by decide, rfl⟩,
   (update_issues_one_merge_at_key memEnv ⟨bodyAna, [("itemID", "k")]⟩
      ⟨⟨[("k", ⟨"k", "Bia", 1, "Rua B"⟩)]⟩, []⟩ ⟨"", "Ana", 5551234, "Rua A"⟩
      (by decide) (by decide) rfl).1⟩

/-- C8: once the request has passed the client-side checks, a store call that fails
with message `e` makes each handler answer status 500 with `e` as the one line of the
body; in `createItem` nothing else, in particular no item, is written. -/
theorem store_errors_answer_500 {σ : Type} (env : Env σ) (r : Request) (s : World σ)
    (e : String) (db1 : σ) :
    (∀ item, env.decode r.body = .ok item →
      env.store.Push s.db (NewRef "items") item = (.error e, db1) →
      (serve createItem env r s).1 = ⟨some 500, [.line e]⟩) ∧
    (env.store.Get s.db (NewRef "items") = (.error e, db1) →
      (serve readItems env r s).1 = ⟨some 500, [.line e]⟩) ∧
    (∀ item, env.decode r.body = .ok item → queryGet r.query "itemID" ≠ "" →
      env.store.Update s.db ((NewRef "items").Child (queryGet r.query "itemID"))
        [("nome", .str item.Nome), ("telefone", .int item.Telefone),
         ("endereco", .str item.Endereco)] = (some e, db1) →
      (serve updateItem env r s).1 = ⟨some 500, [.line e]⟩) ∧
    (queryGet r.query "itemID" ≠ "" →
      env.store.Delete s.db ((NewRef "items").Child (queryGet r.query "itemID")) =
        (some e, db1) →
      (serve deleteItem env r s).1 = ⟨some 500, [.line e]⟩) := by
  refine ⟨?_, ?_, ?_, ?_⟩
  · intro item hdec hpush
    simp [serve, createItem, World.Push, hdec, hpush, fresh_httpError,
      StatusInternalServerError]
  · intro hget
    simp [serve, readItems, World.Get, hget, fresh_httpError, StatusInternalServerError]
  · intro item hdec hid hupd
    simp [serve, updateItem, World.Update, hdec, hid, hupd, fresh_httpError,
      StatusInternalServerError]
  · intro hid hdel
    simp [serve, deleteItem, World.Delete, hid, hdel, fresh_httpError,
      StatusInternalServerError]

/-- Witness of C8: the four handlers against a database that refuses every call. -/
theorem store_errors_answer_500_witness :
    ((downEnv "connection refused").decode bodyAna = .ok ⟨"", "Ana", 5551234, "Rua A"⟩ ∧
      queryGet [("itemID", "k")] "itemID" ≠ "") ∧
    (serve createItem (downEnv "connection refused") ⟨bodyAna, [("itemID", "k")]⟩
      emptyWorld).1 = ⟨some 500, [.line "connection refused"]⟩ ∧
    (serve readItems (downEnv "connection refused") ⟨bodyAna, [("itemID", "k")]⟩
      emptyWorld).1 = ⟨some 500, [.line "connection refused"]⟩ ∧
    (serve updateItem (downEnv "connection refused") ⟨bodyAna, [("itemID", "k")]⟩
      emptyWorld).1 = ⟨some 500, [.line "connection refused"]⟩ ∧
    (serve deleteItem (downEnv "connection refused") ⟨bodyAna, [("itemID", "k")]⟩
      emptyWorld).1 = ⟨some 500, [.line "connection refused"]⟩ :=
  ⟨⟨rfl, by decide⟩,
   (store_errors_answer_500 (downEnv "connection refused") ⟨bodyAna, [("itemID", "k")]⟩
      emptyWorld "connection refused" ⟨[]⟩).1 ⟨"", "Ana", 5551234, "Rua A"⟩ rfl rfl,
   (store_errors_answer_500 (downEnv "connection refused") ⟨bodyAna, [("itemID", "k")]⟩
      emptyWorld "connection refused" ⟨[]⟩).2.1 rfl,
   (store_errors_answer_500 (downEnv "connection refused") ⟨bodyAna, [("itemID", "k")]⟩
      emptyWorld "connection refused" ⟨[]⟩).2.2.1 ⟨"", "Ana", 5551234, "Rua A"⟩ rfl
      (by decide) rfl,
   (store_errors_answer_500 (downEnv "connection refused") ⟨bodyAna, [("itemID", "k")]⟩
      emptyWorld "connection refused" ⟨[]⟩).2.2.2 (by decide) rfl⟩

/-- C9 fails as stated: the record `k` is created and then deleted, so that `k` is
absent from the collection; the update addressed to `k` is nevertheless answered with
status 200 and leaves a record under `k` in the database. -/
theorem update_of_deleted_id_answers_200 :
    (serve deleteItem memEnv ⟨"", [("itemID", "k")]⟩
      (serve createItem memEnv ⟨bodyAna, []⟩ emptyWorld).2).2.db = ⟨[]⟩ ∧
    (serve updateItem memEnv ⟨bodyAna, [("itemID", "k")]⟩
      (serve deleteItem memEnv ⟨"", [("itemID", "k")]⟩
        (serve createItem memEnv ⟨bodyAna, []⟩ emptyWorld).2).2).1 =
      ⟨some 200, [.text "Item with ID k updated successfully"]⟩ ∧
    (serve updateItem memEnv ⟨bodyAna, [("itemID", "k")]⟩
      (serve deleteItem memEnv ⟨"", [("itemID", "k")]⟩
        (serve createItem memEnv ⟨bodyAna, []⟩ emptyWorld).2).2).2.db =
      ⟨[("k", ⟨"", "Ana", 5551234, "Rua A"⟩)]⟩ := by
  refine ⟨by decide, by decide, by decide⟩

/-- C9 as amended: for a non-empty `itemID` and a decodable body, `updateItem` makes no
check that the id is present: its only store call is the merge write on
`items/<itemID>`, the database afterwards is the one that merge leaves, and the answer
follows the result of the merge alone, status 200 with the confirmation when it
succeeds and status 500 with the message of the store when it fails. -/
theorem update_outcome_follows_merge {σ : Type} (env : Env σ) (r : Request) (s : World σ)
    (item : Item) (hid : queryGet r.query "itemID" ≠ "")
    (hdec : env.decode r.body = .ok item) :
    (serve updateItem env r s).2 =
      ⟨(env.store.Update s.db ((NewRef "items").Child (queryGet r.query "itemID"))
          [("nome", .str item.Nome), ("telefone", .int item.Telefone),
           ("endereco", .str item.Endereco)]).2,
        s.calls ++ [.Update ((NewRef "items").Child (queryGet r.query "itemID"))
          [("nome", .str item.Nome), ("telefone", .int item.Telefone),
           ("endereco", .str item.Endereco)]]⟩ ∧
    (serve updateItem env r s).1 =
      (match (env.store.Update s.db ((NewRef "items").Child (queryGet r.query "itemID"))
          [("nome", .str item.Nome), ("telefone", .int item.Telefone),
           ("endereco", .str item.Endereco)]).1 with
       | none => ⟨some 200, [.text ("Item with ID " ++ queryGet r.query "itemID" ++
            " updated successfully")]⟩
       | some e => ⟨some 500, [.line e]⟩) := by
  have hw : ∀ p : Option String × World σ, p = (p.1, p.2) := fun _ => rfl
  simp only [serve, updateItem, hdec, if_neg hid]
  rw [hw (World.Update env s _ _)]
  cases hres : (env.store.Update s.db ((NewRef "items").Child (queryGet r.query "itemID"))
          [("nome", .str item.Nome), ("telefone", .int item.Telefone),
           ("endereco", .str item.Endereco)]).1 <;>
    simp [World.Update, hres, fresh_httpError, fresh_writeHeader, ResponseWriter.Write,
      StatusOK, StatusInternalServerError]

/-- Witness of the amended C9: an update addressed to the id `gone`, absent from the
empty reference database. -/
theorem update_outcome_follows_merge_witness :
    (queryGet [("itemID", "gone")] "itemID" ≠ "" ∧
      memEnv.decode bodyAna = .ok ⟨"", "Ana", 5551234, "Rua A"⟩) ∧
    (serve updateItem memEnv ⟨bodyAna, [("itemID", "gone")]⟩ emptyWorld).2.calls =
      [.Update ((NewRef "items").Child "gone")
        [("nome", .str "Ana"), ("telefone", .int 5551234), ("endereco", .str "Rua A")]] :=
  ⟨⟨by decide, rfl⟩,
   congrArg World.calls (update_outcome_follows_merge memEnv ⟨bodyAna, [("itemID", "gone")]⟩
     emptyWorld ⟨"", "Ana", 5551234, "Rua A"⟩ (by decide) rfl).1⟩

/-- C4 on the code: Get answers the record that a create of the example body leaves
under the key `k1`; the item `readItems` emits for it has the empty id of the stored
document, not the key `k1`. -/
theorem read_emits_stored_id_not_key :
    memEnv.store.Get (⟨[("k1", ⟨"", "Ana", 5551234, "Rua A"⟩)]⟩ : MemDB) (NewRef "items") =
      (.ok (some [("k1", ⟨"", "Ana", 5551234, "Rua A"⟩)]),
        ⟨[("k1", ⟨"", "Ana", 5551234, "Rua A"⟩)]⟩) ∧
    (serve readItems memEnv ⟨"", []⟩ ⟨⟨[("k1", ⟨"", "Ana", 5551234, "Rua A"⟩)]⟩, []⟩).1 =
      ⟨some 200, [.json (.array [[("id", .str ""), ("nome", .str "Ana"),
        ("telefone", .int 5551234), ("endereco", .str "Rua A")]])]⟩ ∧
    (Value.str "" ≠ Value.str "k1") := by
  refine ⟨rfl, by decide, by decide⟩

/-- C5 on the code: the example body is created in the empty reference database and
answered with the id `k`; the read that follows answers one item, with the empty id,
so that no item of the read has the id `k`. -/
theorem read_after_create_lacks_created_id :
    (serve createItem memEnv ⟨bodyAna, []⟩ emptyWorld).1 =
      ⟨some 201, [.json (.object [("id", .str "k"), ("nome", .str "Ana"),
        ("telefone", .int 5551234), ("endereco", .str "Rua A")])]⟩ ∧
    (serve createItem memEnv ⟨bodyAna, []⟩ emptyWorld).2.db =
      ⟨[("k", ⟨"", "Ana", 5551234, "Rua A"⟩)]⟩ ∧
    (serve readItems memEnv ⟨"", []⟩ (serve createItem memEnv ⟨bodyAna, []⟩ emptyWorld).2).1 =
      ⟨some 200, [.json (.array [[("id", .str ""), ("nome", .str "Ana"),
        ("telefone", .int 5551234), ("endereco", .str "Rua A")]])]⟩ := by
  refine ⟨by decide, by decide, by decide⟩

/-- C6 on the code: when Get succeeds with the nil map (the empty reference database)
or with an empty map, `readItems` answers status 200 and the encoded body is the JSON
value `null`, which is not the empty array. -/
theorem read_of_empty_collection_answers_null :
    (serve readItems memEnv ⟨"", []⟩ emptyWorld).1 = ⟨some 200, [.json .null]⟩ ∧
    (serve readItems (answeringEnv (some [])) ⟨"", []⟩ emptyWorld).1 =
      ⟨some 200, [.json .null]⟩ ∧
    (serve readItems memEnv ⟨"", []⟩ emptyWorld).1.body ≠ [.json (.array [])] := by
  refine ⟨by decide, by decide, by decide⟩

/-- For a mapping with at least one entry, `readItems` does what C10 says: when Get
answers such a mapping, the response is status 200 with the array of the encoded items
of a list that is a permutation of the values of the mapping, as long as the mapping
has keys and holding every value as many times as it is stored. -/
theorem read_lists_values_of_inhabited_map {σ : Type} (env : Env σ) (r : Request)
    (s : World σ) (data : GoMap) (db1 : σ)
    (hget : env.store.Get s.db (NewRef "items") = (.ok data, db1))
    (hne : data.entries ≠ []) :
    ∃ items : List Item,
      (serve readItems env r s).1 = ⟨some 200, [.json (.array (items.map marshalItem))]⟩ ∧
      items.Perm (data.entries.map Prod.snd) ∧
      items.length = data.entries.length ∧
      (∀ v, items.count v = (data.entries.map Prod.snd).count v) := by
  have hv : env.order.visit data.entries ≠ [] := by
    intro h0
    have := (env.order.perm data.entries).length_eq
    rw [h0] at this
    exact hne (List.length_eq_zero.mp this.symm)
  obtain ⟨xs, hxs⟩ := collect_isSome none _ hv
  have hel : xs = (env.order.visit data.entries).map Prod.snd := by
    have := collect_elems none (env.order.visit data.entries)
    simpa [hxs, Slice.elems] using this
  have hperm : xs.Perm (data.entries.map Prod.snd) := by
    rw [hel]
    exact (env.order.perm data.entries).map Prod.snd
  refine ⟨xs, ?_, hperm, ?_, ?_⟩
  · simp [serve, readItems, World.Get, hget, ResponseWriter.Write, ResponseWriter.fresh,
      hxs, marshalItems]
  · simpa using hperm.length_eq
  · intro v
    exact hperm.count_eq v

/-- Two records of the reference database, read with the entries visited last to
first: the response is the array of the two encoded items. -/
theorem read_lists_values_of_inhabited_map_witness :
    ∃ items : List Item,
      (serve readItems memEnvReversed ⟨"", []⟩
        ⟨⟨[("a", ⟨"", "Ana", 5551234, "Rua A"⟩), ("b", ⟨"", "Bia", 1, "Rua B"⟩)]⟩, []⟩).1 =
          ⟨some 200, [.json (.array (items.map marshalItem))]⟩ ∧
      items.Perm [⟨"", "Ana", 5551234, "Rua A"⟩, ⟨"", "Bia", 1, "Rua B"⟩] :=
  (read_lists_values_of_inhabited_map memEnvReversed ⟨"", []⟩
      ⟨⟨[("a", ⟨"", "Ana", 5551234, "Rua A"⟩), ("b", ⟨"", "Bia", 1, "Rua B"⟩)]⟩, []⟩
      (some [("a", ⟨"", "Ana", 5551234, "Rua A"⟩), ("b", ⟨"", "Bia", 1, "Rua B"⟩)])
      ⟨[("a", ⟨"", "Ana", 5551234, "Rua A"⟩), ("b", ⟨"", "Bia", 1, "Rua B"⟩)]⟩ rfl
      (by decide)).imp
    (fun _ h => ⟨h.1, h.2.1⟩)

/-- C10 on the code: when Get answers a mapping without entries (the empty map or the
nil map), `readItems` answers status 200 with the JSON value `null`: the body is not
an array, so it is not the empty sequence that is the permutation of the values of
that mapping. -/
theorem read_of_empty_mapping_emits_no_sequence :
    (answeringEnv (some [])).store.Get emptyWorld.db (NewRef "items") =
      (.ok (some []), ⟨[]⟩) ∧
    (serve readItems (answeringEnv (some [])) ⟨"", []⟩ emptyWorld).1 =
      ⟨some 200, [.json .null]⟩ ∧
    (serve readItems (answeringEnv none) ⟨"", []⟩ emptyWorld).1 =
      ⟨some 200, [.json .null]⟩ ∧
    ¬ ∃ ds : List Document,
      (serve readItems (answeringEnv (some [])) ⟨"", []⟩ emptyWorld).1.body =
        [.json (.array ds)] := by
  refine ⟨rfl, by decide, by decide, ?_⟩
  rintro ⟨ds, h⟩
  have hb : (serve readItems (answeringEnv (some [])) ⟨"", []⟩ emptyWorld).1.body =
      [.json .null] := by decide
  rw [hb] at h
  simp at h

end Crudback
